import Mathlib

/-!
Verification development for `JETI_Log_Parser.py` (class `JetiTelemetryParser`).

The Python source is shallowly embedded below:

* Python `dict` (insertion-ordered) is modelled as an association list with
  `alistGet` (lookup of the unique binding) and `alistInsert`
  (update-in-place if the key is present, append otherwise), which matches
  `d[k] = v` / `d.get(k)` / `k in d` semantics.
* Python `int(s)` is modelled by `pyInt : String → Option Int` (strip
  whitespace, optional sign, ASCII digits); a `none` result corresponds to
  `ValueError`.
* Exceptions (`ValueError` from `int`, `IndexError` from list indexing,
  `KeyError` from `dict[...]`) are modelled with `Except PyError`: the code
  has no try/except, so an error aborts the surrounding pass exactly as an
  uncaught Python exception would.
* Python float division `raw_value / (10 ** decimal_places)` is modelled
  exactly over `ℚ` by `finalValue`.
* `str.split(";")`, `str.startswith`, `str.strip`, `str.splitlines` are
  modelled by `splitSemi`, `pyStartsWith`, `pyStrip`, `splitLines` over the
  character list of the string.
* The final conversion of each per-channel list to a numpy array
  (source lines 76-78) is an order-preserving container change and is not
  modelled; the Series is the list itself.
-/

/-- Python exception kinds that the parser can raise (it has no handlers). -/
inductive PyError where
  | valueError
  | indexError
  | keyError
deriving DecidableEq

/-- The channel-descriptor dictionary `{"name": ..., "unit": ...}` built at
source line 42. -/
structure ChannelDescriptor where
  name : String
  unit : Option String
deriving DecidableEq

/-- The per-device dictionary `{"channels": {...}, "data": {...}}`
(source line 37). -/
structure Device where
  channels : List (Int × ChannelDescriptor)
  data : List (Int × List (Int × ℚ))
deriving DecidableEq

/-- The mutable state of a `JetiTelemetryParser` instance:
`self.devices` and `self.device_id_to_name` (source lines 8-9). -/
structure ParserState where
  devices : List (String × Device)
  device_id_to_name : List (Int × String)
deriving DecidableEq

/-- Model of `self.devices = {}; self.device_id_to_name = {}` (source lines 8-9). -/
def initState : ParserState := { devices := [], device_id_to_name := [] }

/-- Dictionary lookup `d.get(k)` on the association-list model of a dict. -/
def alistGet {α β : Type} [DecidableEq α] (k : α) : List (α × β) → Option β
  | [] => none
  | (k', v) :: l => if k' = k then some v else alistGet k l

/-- Dictionary update `d[k] = v`: replace the binding in place when the key
is present, append a new binding otherwise (insertion-order semantics). -/
def alistInsert {α β : Type} [DecidableEq α] (k : α) (v : β) : List (α × β) → List (α × β)
  | [] => [(k, v)]
  | (k', v') :: l => if k' = k then (k, v) :: l else (k', v') :: alistInsert k v l

/-- ASCII whitespace recognised by the model of `str.strip()`. -/
def isSpaceChar (c : Char) : Bool :=
  c = ' ' || c = '\t' || c = '\n' || c = '\r'

/-- Model of Python `s.strip()`: drop whitespace from both ends. -/
def pyStrip (s : String) : String :=
  String.mk (((s.data.dropWhile isSpaceChar).reverse.dropWhile isSpaceChar).reverse)

/-- Character-list prefix test used to model `str.startswith`. -/
def isPrefixCL : List Char → List Char → Bool
  | [], _ => true
  | _ :: _, [] => false
  | a :: as, b :: bs => a = b && isPrefixCL as bs

/-- Model of Python `line.startswith(p)`. -/
def pyStartsWith (p : String) (s : String) : Bool :=
  isPrefixCL p.data s.data

/-- Value of a nonempty all-ASCII-digit character list, `none` otherwise. -/
def digitsVal (cs : List Char) : Option Nat :=
  if cs.isEmpty then none
  else if cs.all (fun c => c.isDigit) then
    some (cs.foldl (fun acc c => 10 * acc + (c.toNat - 48)) 0)
  else none

/-- Model of Python `int(s)`: strip whitespace, optional sign, digits.
`none` models a raised `ValueError`. -/
def pyInt (s : String) : Option Int :=
  match (pyStrip s).data with
  | '-' :: rest => (digitsVal rest).map (fun n => -(n : Int))
  | '+' :: rest => (digitsVal rest).map (fun n => (n : Int))
  | cs => (digitsVal cs).map (fun n => (n : Int))

/-- Model of `line.split(";")` (keeps empty fields, result never empty). -/
def splitSemiAux : List Char → List Char → List (List Char)
  | [], acc => [acc.reverse]
  | c :: cs, acc =>
    if c = ';' then acc.reverse :: splitSemiAux cs []
    else splitSemiAux cs (c :: acc)

/-- Model of `line.split(";")` on strings. -/
def splitSemi (s : String) : List String :=
  (splitSemiAux s.data []).map (fun l => String.mk l)

/-- Model of Python `str.splitlines()` (split on newline / carriage return,
no trailing empty line). -/
def splitLinesAux : List Char → List Char → List (List Char)
  | [], acc => if acc.isEmpty then [] else [acc.reverse]
  | '\r' :: '\n' :: cs, acc => acc.reverse :: splitLinesAux cs []
  | '\r' :: cs, acc => acc.reverse :: splitLinesAux cs []
  | '\n' :: cs, acc => acc.reverse :: splitLinesAux cs []
  | c :: cs, acc => splitLinesAux cs (c :: acc)

/-- Model of `log_data.splitlines()` on strings (source line 13). -/
def splitLines (s : String) : List String :=
  (splitLinesAux s.data []).map (fun l => String.mk l)

/-- Source line 68, `final_value = raw_value / (10 ** decimal_places)`,
with Python float division modelled exactly over `ℚ`. -/
def finalValue (raw_value decimal_places : Int) : ℚ :=
  (raw_value : ℚ) / (10 : ℚ) ^ decimal_places

/-- The index sequence of Python `range(0, n, 4)` (source line 63). -/
def strideIndices (n : Nat) : List Nat :=
  (List.range n).filter (fun i => i % 4 == 0)

/-- Source lines 32-37: a device-name metadata line (`channel_id == 0`)
records `device_id → name` in the registry and creates the `Device` entry
if the name is new. -/
def registerDeviceName (st : ParserState) (device_id : Int) (device_name : String) :
    ParserState :=
  { devices :=
      if (alistGet device_name st.devices).isSome then st.devices
      else st.devices ++ [(device_name, { channels := [], data := [] })],
    device_id_to_name := alistInsert device_id device_name st.device_id_to_name }

/-- Source lines 38-47: a channel metadata line. `device_id_to_name.get`
followed by the truthiness test `if device_name:` (false for `None` and for
the empty string); `self.devices[device_name]` raises `KeyError` when the
name is not a key. -/
def registerChannel (st : ParserState) (device_id channel_id : Int)
    (channel_name : String) (unit : Option String) : Except PyError ParserState :=
  match alistGet device_id st.device_id_to_name with
  | none => Except.ok st
  | some device_name =>
    if device_name = "" then Except.ok st
    else
      match alistGet device_name st.devices with
      | none => Except.error PyError.keyError
      | some dev =>
        let dev' : Device :=
          { channels := alistInsert channel_id
              { name := channel_name, unit := unit } dev.channels,
            data := alistInsert channel_id [] dev.data }
        Except.ok { st with devices := alistInsert device_name dev' st.devices }

/-- One iteration of the loop of `_parse_devices` (source lines 19-47).
A `none` from `pyInt` is Python's `ValueError`, which propagates. -/
def parseDevicesLine (st : ParserState) (line : String) : Except PyError ParserState :=
  if pyStartsWith "#" line then Except.ok st
  else
    if (splitSemi line).length < 4 ∨ (splitSemi line).getD 0 "" ≠ "000000000" then
      Except.ok st
    else
      match pyInt ((splitSemi line).getD 1 "") with
      | none => Except.error PyError.valueError
      | some device_id =>
        match pyInt ((splitSemi line).getD 2 "") with
        | none => Except.error PyError.valueError
        | some channel_id =>
          if channel_id = 0 then
            Except.ok (registerDeviceName st device_id (pyStrip ((splitSemi line).getD 3 "")))
          else
            registerChannel st device_id channel_id (pyStrip ((splitSemi line).getD 3 ""))
              (((splitSemi line).get? 4).map pyStrip)

/-- Method `_parse_devices` (source lines 17-47): fold over all lines; an uncaught
exception aborts the remaining lines. -/
def parseDevices (st : ParserState) (lines : List String) : Except PyError ParserState :=
  List.foldlM parseDevicesLine st lines

/-- Source lines 70-73: resolve the device id through the registry (with the
truthiness test on the name), test `channel_id in devices[name]["data"]`,
and append `(timestamp, value)` to that channel's list. -/
def applySample (st : ParserState) (timestamp device_id channel_id : Int) (v : ℚ) :
    Except PyError ParserState :=
  match alistGet device_id st.device_id_to_name with
  | none => Except.ok st
  | some device_name =>
    if device_name = "" then Except.ok st
    else
      match alistGet device_name st.devices with
      | none => Except.error PyError.keyError
      | some dev =>
        match alistGet channel_id dev.data with
        | none => Except.ok st
        | some series =>
          let newData := alistInsert channel_id (series ++ [(timestamp, v)]) dev.data
          let dev' : Device := { dev with data := newData }
          Except.ok { st with devices := alistInsert device_name dev' st.devices }

/-- One iteration of the stride loop of `_parse_entries` (source lines
63-73): index and parse the three used fields of the stride, in source
order, then apply the sample. -/
def processStride (timestamp device_id : Int) (channel_data : List String)
    (st : ParserState) (i : Nat) : Except PyError ParserState :=
  match channel_data.get? i with
  | none => Except.error PyError.indexError
  | some s1 =>
    match pyInt s1 with
    | none => Except.error PyError.valueError
    | some channel_id =>
      match channel_data.get? (i + 2) with
      | none => Except.error PyError.indexError
      | some s2 =>
        match pyInt s2 with
        | none => Except.error PyError.valueError
        | some decimal_places =>
          match channel_data.get? (i + 3) with
          | none => Except.error PyError.indexError
          | some s3 =>
            match pyInt s3 with
            | none => Except.error PyError.valueError
            | some raw_value =>
              applySample st timestamp device_id channel_id
                (finalValue raw_value decimal_places)

/-- Source lines 55-73: the body of `_parse_entries` for one line after
line classification: field-count check, timestamp and device id parse, then
the stride loop over `range(0, len(channel_data), 4)`. -/
def decodeEntryLine (st : ParserState) (line : String) : Except PyError ParserState :=
  if (splitSemi line).length < 6 then Except.ok st
  else
    match pyInt ((splitSemi line).getD 0 "") with
    | none => Except.error PyError.valueError
    | some timestamp =>
      match pyInt ((splitSemi line).getD 1 "") with
      | none => Except.error PyError.valueError
      | some device_id =>
        List.foldlM (processStride timestamp device_id ((splitSemi line).drop 2)) st
          (strideIndices ((splitSemi line).drop 2).length)

/-- One iteration of the loop of `_parse_entries` (source lines 51-73):
the classification at line 52 is a *prefix* test on the raw line. -/
def parseEntriesLine (st : ParserState) (line : String) : Except PyError ParserState :=
  if pyStartsWith "#" line || pyStartsWith "000000000" line then Except.ok st
  else decodeEntryLine st line

/-- Method `_parse_entries` (source lines 49-73). -/
def parseEntries (st : ParserState) (lines : List String) : Except PyError ParserState :=
  List.foldlM parseEntriesLine st lines

/-- Method `parse` (source lines 11-15): both passes over the same lines,
pass 1 strictly before pass 2. -/
def parse (lines : List String) : Except PyError ParserState :=
  match parseDevices initState lines with
  | Except.error e => Except.error e
  | Except.ok st => parseEntries st lines

/-- Method `parse` on the raw text blob (source lines 6, 13). -/
def parseLog (log_data : String) : Except PyError ParserState :=
  parse (splitLines log_data)

/-- The Series stored for channel `cid` of device `dn`, if any. -/
def seriesOf (st : ParserState) (dn : String) (cid : Int) : Option (List (Int × ℚ)) :=
  match alistGet dn st.devices with
  | none => none
  | some dev => alistGet cid dev.data

/-- Structural flat-map used by the spec-side sample extraction. -/
def flatMapL {α β : Type} (g : α → List β) : List α → List β
  | [] => []
  | a :: l => g a ++ flatMapL g l

/-- Spec-side description (for the order invariant): the sample a single
stride of a data line contributes to channel `cid` of device `dn`, with
resolution read off a fixed reference state `st0`. -/
def strideSampleSpec (st0 : ParserState) (dn : String) (cid : Int)
    (t did : Int) (cd : List String) (i : Nat) : List (Int × ℚ) :=
  match (cd.get? i).bind pyInt, (cd.get? (i + 2)).bind pyInt,
      (cd.get? (i + 3)).bind pyInt with
  | some ch, some d, some r =>
    if alistGet did st0.device_id_to_name = some dn ∧ dn ≠ "" ∧ ch = cid ∧
        (seriesOf st0 dn cid).isSome = true
    then [(t, finalValue r d)] else []
  | _, _, _ => []

/-- Spec-side description: the samples one input line contributes to channel
`cid` of device `dn`, in stride order. -/
def lineSamplesSpec (st0 : ParserState) (dn : String) (cid : Int)
    (line : String) : List (Int × ℚ) :=
  if pyStartsWith "#" line || pyStartsWith "000000000" line then []
  else
    if (splitSemi line).length < 6 then []
    else
      match pyInt ((splitSemi line).getD 0 ""), pyInt ((splitSemi line).getD 1 "") with
      | some t, some did =>
        flatMapL (strideSampleSpec st0 dn cid t did ((splitSemi line).drop 2))
          (strideIndices ((splitSemi line).drop 2).length)
      | _, _ => []

/-- Spec-side description: all samples the input contributes to channel
`cid` of device `dn`, in encounter order. -/
def specSamples (st0 : ParserState) (dn : String) (cid : Int)
    (lines : List String) : List (Int × ℚ) :=
  flatMapL (lineSamplesSpec st0 dn cid) lines

/-- Registry invariant: every device name stored in `device_id_to_name` is a
key of `devices`. -/
def regInv (st : ParserState) : Prop :=
  ∀ did dn, alistGet did st.device_id_to_name = some dn →
    (alistGet dn st.devices).isSome = true

/-- The parts of the state that the Entry Decoder's resolution reads, all
relative to a reference state `st0`: the registry is unchanged, the device
key set is unchanged, and per present device the channel-descriptor map and
the key set of the data map are unchanged. -/
def shapeEq (st0 st : ParserState) : Prop :=
  st.device_id_to_name = st0.device_id_to_name ∧
  (∀ dn, (alistGet dn st.devices).isSome = (alistGet dn st0.devices).isSome) ∧
  (∀ dn dev0 dev, alistGet dn st0.devices = some dev0 →
     alistGet dn st.devices = some dev →
     dev.channels = dev0.channels ∧
     ∀ cid, (alistGet cid dev.data).isSome = (alistGet cid dev0.data).isSome)

theorem shapeEq_refl (st : ParserState) : shapeEq st st := by
  refine ⟨rfl, fun _ => rfl, fun dn dev0 dev h0 h1 => ?_⟩
  rw [h0] at h1
  cases h1
  exact ⟨rfl, fun _ => rfl⟩

theorem shapeEq_trans {st0 st1 st2 : ParserState} (h01 : shapeEq st0 st1)
    (h12 : shapeEq st1 st2) : shapeEq st0 st2 := by
  obtain ⟨r01, k01, d01⟩ := h01
  obtain ⟨r12, k12, d12⟩ := h12
  refine ⟨r12.trans r01, fun dn => (k12 dn).trans (k01 dn), ?_⟩
  intro dn dev0 dev2 h0 h2
  have h1s : (alistGet dn st1.devices).isSome = true := by
    rw [k01 dn, h0]; rfl
  obtain ⟨dev1, h1⟩ := Option.isSome_iff_exists.mp h1s
  obtain ⟨c01, m01⟩ := d01 dn dev0 dev1 h0 h1
  obtain ⟨c12, m12⟩ := d12 dn dev1 dev2 h1 h2
  exact ⟨c12.trans c01, fun cid => (m12 cid).trans (m01 cid)⟩

theorem alistGet_insert {α β : Type} [DecidableEq α] (k' k : α) (v : β) :
    ∀ l : List (α × β),
      alistGet k' (alistInsert k v l) = if k = k' then some v else alistGet k' l
  | [] => by by_cases h : k = k' <;> simp [alistGet, alistInsert, h]
  | (k0, v0) :: l => by
    by_cases h0 : k0 = k
    · subst h0
      by_cases h : k0 = k' <;> simp [alistGet, alistInsert, h]
    · have h0' : k ≠ k0 := fun hh => h0 hh.symm
      by_cases h : k0 = k'
      · subst h
        simp [alistGet, alistInsert, h0, if_neg h0']
      · simp [alistGet, alistInsert, h0, h, alistGet_insert k' k v l]

theorem alistGet_append {α β : Type} [DecidableEq α] (k : α) :
    ∀ l1 l2 : List (α × β),
      alistGet k (l1 ++ l2) =
        match alistGet k l1 with
        | some v => some v
        | none => alistGet k l2
  | [], _ => by simp [alistGet]
  | (k0, v0) :: l1, l2 => by
    by_cases h : k0 = k <;> simp [alistGet, h, alistGet_append k l1 l2]

theorem alistInsert_map_fst {α β : Type} [DecidableEq α] (k : α) (v : β) :
    ∀ l : List (α × β),
      (alistInsert k v l).map Prod.fst =
        if (alistGet k l).isSome = true then l.map Prod.fst
        else l.map Prod.fst ++ [k]
  | [] => by simp [alistGet, alistInsert]
  | (k0, v0) :: l => by
    by_cases h : k0 = k <;>
      simp [alistGet, alistInsert, h, alistInsert_map_fst k v l] <;>
      by_cases h2 : (alistGet k l).isSome = true <;> simp [h2]

theorem alistGet_eq_none_of_not_mem {α β : Type} [DecidableEq α] (k : α) :
    ∀ l : List (α × β), k ∉ l.map Prod.fst → alistGet k l = none
  | [], _ => rfl
  | (k0, v0) :: l, h => by
    simp only [List.map, List.mem_cons] at h
    push_neg at h
    have h1 : ¬k0 = k := fun hh => h.1 hh.symm
    simp [alistGet, h1, alistGet_eq_none_of_not_mem k l h.2]

/-- Unfolding of an `Except`-valued fold over a cons cell. -/
theorem foldlM_except_cons {σ α ε : Type} (f : σ → α → Except ε σ) (st : σ)
    (a : α) (l : List α) :
    List.foldlM f st (a :: l) =
      match f st a with
      | Except.error e => Except.error e
      | Except.ok st' => List.foldlM f st' l := by
  cases h : f st a <;> simp only [List.foldlM, h] <;> rfl

/-- An `Except`-valued fold over an appended list runs the first part to
completion before the second; an error in the first part aborts. -/
theorem foldlM_except_append {σ α ε : Type} (f : σ → α → Except ε σ) :
    ∀ (l1 : List α) (l2 : List α) (st : σ),
      List.foldlM f st (l1 ++ l2) =
        match List.foldlM f st l1 with
        | Except.error e => Except.error e
        | Except.ok st' => List.foldlM f st' l2
  | [], _, _ => rfl
  | a :: l1, l2, st => by
    rw [List.cons_append, foldlM_except_cons, foldlM_except_cons]
    cases h : f st a with
    | error e => simp only [h]
    | ok st1 => simp only [h]; exact foldlM_except_append f l1 l2 st1

/-- A property preserved by every successful step of an `Except`-valued fold
holds for the result of the fold. -/
theorem foldlM_except_inv {σ α ε : Type} (P : σ → Prop) (f : σ → α → Except ε σ)
    (hf : ∀ s a s', P s → f s a = Except.ok s' → P s') :
    ∀ (l : List α) (s s' : σ), P s → List.foldlM f s l = Except.ok s' → P s'
  | [], s, s', hP, h => Except.ok.inj h ▸ hP
  | a :: l, s, s', hP, h => by
    rw [foldlM_except_cons] at h
    cases ha : f s a with
    | error e => rw [ha] at h; cases h
    | ok s1 =>
      rw [ha] at h
      exact foldlM_except_inv P f hf l s1 s' (hf s a s1 hP ha) h

theorem seriesOf_eq_of_dev {st : ParserState} {dn : String} {dev : Device}
    (h : alistGet dn st.devices = some dev) (cid : Int) :
    seriesOf st dn cid = alistGet cid dev.data := by
  simp [seriesOf, h]

theorem seriesOf_eq_none_of_dev {st : ParserState} {dn : String}
    (h : alistGet dn st.devices = none) (cid : Int) :
    seriesOf st dn cid = none := by
  simp [seriesOf, h]

/-- The updated state produced by a successful append (source line 73) reads
the same through the decoder's resolution as the state before it. -/
theorem shapeEq_append_update (st : ParserState) (dn : String) (dev : Device)
    (cid : Int) (series tail : List (Int × ℚ))
    (hdev : alistGet dn st.devices = some dev)
    (hser : alistGet cid dev.data = some series) :
    shapeEq st (ParserState.mk
      (alistInsert dn
        (Device.mk dev.channels (alistInsert cid (series ++ tail) dev.data))
        st.devices)
      st.device_id_to_name) := by
  refine ⟨rfl, ?_, ?_⟩
  · intro dn2
    simp only [alistGet_insert]
    by_cases hd : dn = dn2
    · subst hd
      simp [hdev]
    · simp [hd]
  · intro dn2 dev0 dev2 h0 h2
    simp only [alistGet_insert] at h2
    by_cases hd : dn = dn2
    · subst hd
      rw [if_pos rfl] at h2
      rw [hdev] at h0
      cases h0
      cases h2
      refine ⟨rfl, fun cid2 => ?_⟩
      simp only [alistGet_insert]
      by_cases hc : cid = cid2
      · subst hc
        simp [hser]
      · simp [hc]
    · rw [if_neg hd] at h2
      rw [h0] at h2
      cases h2
      exact ⟨rfl, fun _ => rfl⟩

/-- A successful `applySample` step never changes what the decoder's
resolution reads. -/
theorem applySample_shape (st st' : ParserState) (t did ch : Int) (v : ℚ)
    (h : applySample st t did ch v = Except.ok st') : shapeEq st st' := by
  unfold applySample at h
  split at h
  next => cases h; exact shapeEq_refl st
  next dn hreg =>
    split at h
    next => cases h; exact shapeEq_refl st
    next hdn =>
      split at h
      next => cases h
      next dev hdev =>
        split at h
        next => cases h; exact shapeEq_refl st
        next series hser =>
          cases h
          exact shapeEq_append_update st dn dev ch series [(t, v)] hdev hser

/-- A successful `applySample` step either appends the one decoded pair to
the end of the addressed Series or leaves every Series unchanged; no other
Series is touched. -/
theorem applySample_series (st st' : ParserState) (t did ch : Int) (v : ℚ)
    (h : applySample st t did ch v = Except.ok st') (dn : String) (cid : Int)
    (s : List (Int × ℚ)) (hs : seriesOf st dn cid = some s) :
    seriesOf st' dn cid =
      some (s ++ (if alistGet did st.device_id_to_name = some dn ∧ dn ≠ "" ∧ ch = cid
                  then [(t, v)] else [])) := by
  unfold applySample at h
  split at h
  next hreg =>
    cases h
    rw [hreg]
    simp [hs]
  next dn' hreg =>
    split at h
    next hdn =>
      subst hdn
      cases h
      rw [hreg]
      have hcond : ¬(some "" = some dn ∧ dn ≠ "" ∧ ch = cid) := by
        rintro ⟨h1, h2, _⟩
        exact h2 (Option.some.inj h1).symm
      rw [if_neg hcond]
      simp [hs]
    next hdn =>
      split at h
      next => cases h
      next dev hdev =>
        split at h
        next hser =>
          cases h
          rw [hreg]
          have hcond : ¬(some dn' = some dn ∧ dn ≠ "" ∧ ch = cid) := by
            rintro ⟨h1, _, h3⟩
            cases Option.some.inj h1
            subst h3
            rw [seriesOf_eq_of_dev hdev, hser] at hs
            cases hs
          rw [if_neg hcond]
          simp [hs]
        next series hser =>
          cases h
          rw [hreg]
          by_cases hd : dn' = dn
          · subst hd
            by_cases hc : ch = cid
            · subst hc
              rw [if_pos ⟨rfl, hdn, rfl⟩]
              rw [seriesOf_eq_of_dev hdev, hser] at hs
              cases hs
              simp [seriesOf, alistGet_insert]
            · rw [if_neg (fun hcc => hc hcc.2.2)]
              rw [seriesOf_eq_of_dev hdev] at hs
              simp [seriesOf, alistGet_insert, hc, hs]
          · have hcond : ¬(some dn' = some dn ∧ dn ≠ "" ∧ ch = cid) := by
              rintro ⟨h1, _, _⟩
              exact hd (Option.some.inj h1)
            rw [if_neg hcond]
            simp only [seriesOf, alistGet_insert, if_neg hd] at hs ⊢
            simp [hs]

theorem shapeEq_seriesOf_isSome {st0 st : ParserState} (hsh : shapeEq st0 st)
    (dn : String) (cid : Int) :
    (seriesOf st dn cid).isSome = (seriesOf st0 dn cid).isSome := by
  obtain ⟨_, hkeys, hdevs⟩ := hsh
  cases hdev : alistGet dn st.devices with
  | none =>
    have h0 : alistGet dn st0.devices = none := by
      have := hkeys dn
      rw [hdev] at this
      cases h0 : alistGet dn st0.devices with
      | none => rfl
      | some dev0 => rw [h0] at this; cases this
    simp [seriesOf, hdev, h0]
  | some dev =>
    have h0s : (alistGet dn st0.devices).isSome = true := by
      have := hkeys dn
      rw [hdev] at this
      exact this.symm
    obtain ⟨dev0, h0⟩ := Option.isSome_iff_exists.mp h0s
    obtain ⟨_, hdata⟩ := hdevs dn dev0 dev h0 hdev
    simp [seriesOf, hdev, h0, hdata cid]

/-- A successful stride keeps the resolution-relevant state unchanged. -/
theorem processStride_shape (t did : Int) (cd : List String) (st st' : ParserState)
    (i : Nat) (h : processStride t did cd st i = Except.ok st') : shapeEq st st' := by
  unfold processStride at h
  split at h
  next => cases h
  next s1 hg1 =>
    split at h
    next => cases h
    next ch hp1 =>
      split at h
      next => cases h
      next s2 hg2 =>
        split at h
        next => cases h
        next d hp2 =>
          split at h
          next => cases h
          next s3 hg3 =>
            split at h
            next => cases h
            next r hp3 => exact applySample_shape st st' t did ch (finalValue r d) h

/-- A successful stride appends exactly the spec-side sample (read off the
reference state `st0`) to the addressed Series. -/
theorem processStride_spec (st0 : ParserState) (dn : String) (cid : Int)
    (t did : Int) (cd : List String) (st st' : ParserState) (i : Nat)
    (hsh : shapeEq st0 st) (h : processStride t did cd st i = Except.ok st')
    (s : List (Int × ℚ)) (hs : seriesOf st dn cid = some s) :
    seriesOf st' dn cid = some (s ++ strideSampleSpec st0 dn cid t did cd i) := by
  unfold processStride at h
  split at h
  next => cases h
  next s1 hg1 =>
    split at h
    next => cases h
    next ch hp1 =>
      split at h
      next => cases h
      next s2 hg2 =>
        split at h
        next => cases h
        next d hp2 =>
          split at h
          next => cases h
          next s3 hg3 =>
            split at h
            next => cases h
            next r hp3 =>
              have hmain := applySample_series st st' t did ch (finalValue r d) h dn cid s hs
              have hreg : st.device_id_to_name = st0.device_id_to_name := hsh.1
              have hser0 : (seriesOf st0 dn cid).isSome = true := by
                rw [← shapeEq_seriesOf_isSome hsh dn cid, hs]
                rfl
              simp only [strideSampleSpec, hg1, hg2, hg3, Option.some_bind, hp1, hp2, hp3]
              rw [hmain, hreg]
              by_cases hC : alistGet did st0.device_id_to_name = some dn ∧ dn ≠ "" ∧ ch = cid
              · rw [if_pos hC, if_pos ⟨hC.1, hC.2.1, hC.2.2, hser0⟩]
              · rw [if_neg hC, if_neg (fun hc => hC ⟨hc.1, hc.2.1, hc.2.2.1⟩)]

/-- The stride loop of one data line appends exactly the spec-side samples
of its full strides, in stride order. -/
theorem strideFold_spec (st0 : ParserState) (dn : String) (cid : Int)
    (t did : Int) (cd : List String) :
    ∀ (idxs : List Nat) (st st' : ParserState), shapeEq st0 st →
      List.foldlM (processStride t did cd) st idxs = Except.ok st' →
      shapeEq st0 st' ∧
      ∀ s, seriesOf st dn cid = some s →
        seriesOf st' dn cid =
          some (s ++ flatMapL (strideSampleSpec st0 dn cid t did cd) idxs)
  | [], st, st', hsh, h => by
    cases Except.ok.inj h
    exact ⟨hsh, fun s hs => by simpa [flatMapL] using hs⟩
  | i :: idxs, st, st', hsh, h => by
    rw [foldlM_except_cons] at h
    cases h1 : processStride t did cd st i with
    | error e => rw [h1] at h; cases h
    | ok st1 =>
      rw [h1] at h
      have hsh1 : shapeEq st0 st1 := shapeEq_trans hsh (processStride_shape t did cd st st1 i h1)
      obtain ⟨hshf, hserf⟩ := strideFold_spec st0 dn cid t did cd idxs st1 st' hsh1 h
      refine ⟨hshf, fun s hs => ?_⟩
      have hs1 := processStride_spec st0 dn cid t did cd st st1 i hsh h1 s hs
      rw [hserf _ hs1, flatMapL, List.append_assoc]

/-- One pass-2 line appends exactly its spec-side samples to the addressed
Series and keeps the resolution-relevant state unchanged. -/
theorem parseEntriesLine_spec (st0 : ParserState) (dn : String) (cid : Int)
    (st st' : ParserState) (line : String) (hsh : shapeEq st0 st)
    (h : parseEntriesLine st line = Except.ok st') :
    shapeEq st0 st' ∧
    ∀ s, seriesOf st dn cid = some s →
      seriesOf st' dn cid = some (s ++ lineSamplesSpec st0 dn cid line) := by
  unfold parseEntriesLine at h
  split at h
  next hskip =>
    cases Except.ok.inj h
    exact ⟨hsh, fun s hs => by simp [lineSamplesSpec, hskip, hs]⟩
  next hskip =>
    unfold decodeEntryLine at h
    split at h
    next hlen =>
      cases Except.ok.inj h
      refine ⟨hsh, fun s hs => ?_⟩
      simp only [lineSamplesSpec, hskip, if_false, Bool.false_eq_true]
      rw [if_pos hlen]
      simp [hs]
    next hlen =>
      split at h
      next => cases h
      next t hp0 =>
        split at h
        next => cases h
        next did hp1 =>
          obtain ⟨hshf, hserf⟩ := strideFold_spec st0 dn cid t did (splitSemi line |>.drop 2)
            (strideIndices (splitSemi line |>.drop 2).length) st st' hsh h
          refine ⟨hshf, fun s hs => ?_⟩
          rw [hserf s hs]
          simp only [lineSamplesSpec, hskip, if_false, Bool.false_eq_true]
          rw [if_neg hlen]
          simp only [hp0, hp1]

/-- Pass 2 appends to each Series exactly the spec-side samples of all
lines, in encounter order. -/
theorem parseEntries_spec (st0 : ParserState) (dn : String) (cid : Int) :
    ∀ (lines : List String) (st st' : ParserState), shapeEq st0 st →
      parseEntries st lines = Except.ok st' →
      shapeEq st0 st' ∧
      ∀ s, seriesOf st dn cid = some s →
        seriesOf st' dn cid = some (s ++ specSamples st0 dn cid lines)
  | [], st, st', hsh, h => by
    cases Except.ok.inj h
    exact ⟨hsh, fun s hs => by simpa [specSamples, flatMapL] using hs⟩
  | line :: lines, st, st', hsh, h => by
    rw [parseEntries, foldlM_except_cons] at h
    cases h1 : parseEntriesLine st line with
    | error e => rw [h1] at h; cases h
    | ok st1 =>
      rw [h1] at h
      obtain ⟨hsh1, hser1⟩ := parseEntriesLine_spec st0 dn cid st st1 line hsh h1
      obtain ⟨hshf, hserf⟩ := parseEntries_spec st0 dn cid lines st1 st' hsh1 h
      refine ⟨hshf, fun s hs => ?_⟩
      rw [hserf _ (hser1 s hs)]
      simp only [specSamples, flatMapL, List.append_assoc]

/-- Every channel id that is a key of a device's data map is also a key of
its channel-descriptor map, and conversely (they are always written
together, source lines 42-47). -/
def chanDataInv (st : ParserState) : Prop :=
  ∀ dn dev cid, alistGet dn st.devices = some dev →
    (alistGet cid dev.data).isSome = (alistGet cid dev.channels).isSome

/-- The device map never holds two entries for the same name. -/
def nodupKeys (st : ParserState) : Prop :=
  (st.devices.map Prod.fst).Nodup

theorem alistGet_isSome_of_mem {α β : Type} [DecidableEq α] (k : α) :
    ∀ l : List (α × β), k ∈ l.map Prod.fst → (alistGet k l).isSome = true
  | [], h => by cases h
  | (k0, v0) :: l, h => by
    by_cases hk : k0 = k
    · simp [alistGet, hk]
    · have : k ∈ l.map Prod.fst := by
        rcases List.mem_cons.mp h with h1 | h1
        · exact absurd h1.symm hk
        · exact h1
      simp [alistGet, hk, alistGet_isSome_of_mem k l this]

/-- Case analysis for a successful `registerChannel`: either the device id
does not resolve to a usable name and the state is unchanged, or the
channel descriptor and data placeholder are both written. -/
theorem registerChannel_ok (st st' : ParserState) (did cid : Int) (nm : String)
    (u : Option String) (h : registerChannel st did cid nm u = Except.ok st') :
    (st' = st ∧ (alistGet did st.device_id_to_name = none ∨
                 alistGet did st.device_id_to_name = some "")) ∨
    (∃ dn dev, alistGet did st.device_id_to_name = some dn ∧ dn ≠ "" ∧
      alistGet dn st.devices = some dev ∧
      st' = ParserState.mk
        (alistInsert dn
          (Device.mk (alistInsert cid (ChannelDescriptor.mk nm u) dev.channels)
            (alistInsert cid [] dev.data))
          st.devices)
        st.device_id_to_name) := by
  unfold registerChannel at h
  split at h
  next hreg => exact Or.inl ⟨(Except.ok.inj h).symm, Or.inl hreg⟩
  next dn hreg =>
    split at h
    next hdn =>
      subst hdn
      exact Or.inl ⟨(Except.ok.inj h).symm, Or.inr hreg⟩
    next hdn =>
      split at h
      next => cases h
      next dev hdev =>
        exact Or.inr ⟨dn, dev, hreg, hdn, hdev, (Except.ok.inj h).symm⟩

/-- Case analysis for a successful `parseDevicesLine`: the line is skipped,
or it is a device-name declaration, or a channel declaration. -/
theorem parseDevicesLine_ok (st st' : ParserState) (line : String)
    (h : parseDevicesLine st line = Except.ok st') :
    st' = st ∨
    (∃ did nm, st' = registerDeviceName st did nm) ∨
    (∃ did cid nm u, registerChannel st did cid nm u = Except.ok st') := by
  unfold parseDevicesLine at h
  split at h
  next => exact Or.inl (Except.ok.inj h).symm
  next =>
    split at h
    next => exact Or.inl (Except.ok.inj h).symm
    next =>
      split at h
      next => cases h
      next did hdid =>
        split at h
        next => cases h
        next cid hcid =>
          split at h
          next =>
            exact Or.inr (Or.inl ⟨did, _, (Except.ok.inj h).symm⟩)
          next =>
            exact Or.inr (Or.inr ⟨did, cid, _, _, h⟩)

theorem registerDeviceName_mono (st : ParserState) (did : Int) (nm dn2 : String)
    (hs : (alistGet dn2 st.devices).isSome = true) :
    (alistGet dn2 (registerDeviceName st did nm).devices).isSome = true := by
  unfold registerDeviceName
  by_cases hsome : (alistGet nm st.devices).isSome = true
  · simp only [if_pos hsome]
    exact hs
  · simp only [if_neg hsome]
    rw [alistGet_append]
    obtain ⟨dev, hdev⟩ := Option.isSome_iff_exists.mp hs
    rw [hdev]
    rfl

theorem registerDeviceName_self (st : ParserState) (did : Int) (nm : String) :
    (alistGet nm (registerDeviceName st did nm).devices).isSome = true := by
  unfold registerDeviceName
  by_cases hsome : (alistGet nm st.devices).isSome = true
  · simp only [if_pos hsome]
    exact hsome
  · simp only [if_neg hsome]
    rw [alistGet_append]
    cases hg : alistGet nm st.devices with
    | some dev => rfl
    | none => simp [alistGet]

theorem regInv_registerDeviceName (st : ParserState) (did : Int) (nm : String)
    (hinv : regInv st) : regInv (registerDeviceName st did nm) := by
  intro did2 dn2 hreg
  have hreg2 : alistGet did2 (alistInsert did nm st.device_id_to_name) = some dn2 := hreg
  rw [alistGet_insert] at hreg2
  by_cases hd : did = did2
  · rw [if_pos hd] at hreg2
    cases Option.some.inj hreg2
    exact registerDeviceName_self st did nm
  · rw [if_neg hd] at hreg2
    exact registerDeviceName_mono st did nm dn2 (hinv did2 dn2 hreg2)

theorem regInv_registerChannel (st st' : ParserState) (did cid : Int)
    (nm : String) (u : Option String) (hinv : regInv st)
    (h : registerChannel st did cid nm u = Except.ok st') : regInv st' := by
  rcases registerChannel_ok st st' did cid nm u h with ⟨heq, _⟩ | ⟨dn, dev, _, _, hdev, heq⟩
  · rw [heq]; exact hinv
  · subst heq
    intro did2 dn2 hreg
    have := hinv did2 dn2 hreg
    simp only [alistGet_insert]
    by_cases hd : dn = dn2
    · simp [hd]
    · simp [hd, this]

theorem regInv_parseDevicesLine (st st' : ParserState) (line : String)
    (hinv : regInv st) (h : parseDevicesLine st line = Except.ok st') : regInv st' := by
  rcases parseDevicesLine_ok st st' line h with heq | ⟨did, nm, heq⟩ | ⟨did, cid, nm, u, hch⟩
  · rw [heq]; exact hinv
  · rw [heq]; exact regInv_registerDeviceName st did nm hinv
  · exact regInv_registerChannel st st' did cid nm u hinv hch

/-- The registry invariant holds after pass 1 from a fresh state. -/
theorem regInv_parseDevices (lines : List String) (st : ParserState)
    (h : parseDevices initState lines = Except.ok st) : regInv st := by
  refine foldlM_except_inv regInv parseDevicesLine
    (fun s l s' hP hstep => regInv_parseDevicesLine s s' l hP hstep) lines initState st
    (fun did dn hreg => by cases hreg) h

/-- The registry invariant transfers along `shapeEq`. -/
theorem regInv_of_shapeEq {st0 st : ParserState} (hsh : shapeEq st0 st)
    (hinv : regInv st0) : regInv st := by
  intro did dn hreg
  rw [hsh.1] at hreg
  rw [hsh.2.1 dn]
  exact hinv did dn hreg

/-- Under the registry invariant, `applySample` always succeeds: the
`devices[device_name]` access after a successful registry lookup cannot
raise. -/
theorem applySample_no_keyError (st : ParserState) (hinv : regInv st)
    (t did ch : Int) (v : ℚ) :
    applySample st t did ch v ≠ Except.error PyError.keyError := by
  intro h
  unfold applySample at h
  split at h
  next => cases h
  next dn hreg =>
    split at h
    next => cases h
    next hdn =>
      split at h
      next hdev =>
        have := hinv did dn hreg
        rw [hdev] at this
        cases this
      next dev hdev =>
        split at h
        next => cases h
        next => cases h

theorem chanDataInv_registerDeviceName (st : ParserState) (did : Int) (nm : String)
    (hinv : chanDataInv st) : chanDataInv (registerDeviceName st did nm) := by
  intro dn dev cid hdev
  have hdev2 : alistGet dn (if (alistGet nm st.devices).isSome = true then st.devices
      else st.devices ++ [(nm, Device.mk [] [])]) = some dev := hdev
  by_cases hsome : (alistGet nm st.devices).isSome = true
  · rw [if_pos hsome] at hdev2
    exact hinv dn dev cid hdev2
  · rw [if_neg hsome, alistGet_append] at hdev2
    cases hg : alistGet dn st.devices with
    | some dev0 =>
      simp only [hg] at hdev2
      cases Option.some.inj hdev2
      exact hinv dn dev cid hg
    | none =>
      simp only [hg] at hdev2
      by_cases hnd : nm = dn
      · simp only [alistGet, if_pos hnd] at hdev2
        cases Option.some.inj hdev2
        rfl
      · simp [alistGet, hnd] at hdev2

theorem chanDataInv_registerChannel (st st' : ParserState) (did cid : Int)
    (nm : String) (u : Option String) (hinv : chanDataInv st)
    (h : registerChannel st did cid nm u = Except.ok st') : chanDataInv st' := by
  rcases registerChannel_ok st st' did cid nm u h with ⟨heq, _⟩ | ⟨dn, dev, _, _, hdev, heq⟩
  · rw [heq]; exact hinv
  · subst heq
    intro dn2 dev2 cid2 hdev2
    have hdev2' : alistGet dn2 (alistInsert dn
        (Device.mk (alistInsert cid (ChannelDescriptor.mk nm u) dev.channels)
          (alistInsert cid [] dev.data)) st.devices) = some dev2 := hdev2
    rw [alistGet_insert] at hdev2'
    by_cases hd : dn = dn2
    · rw [if_pos hd] at hdev2'
      cases Option.some.inj hdev2'
      simp only [alistGet_insert]
      by_cases hc : cid = cid2
      · simp [hc]
      · simp [hc, hinv dn dev cid2 hdev]
    · rw [if_neg hd] at hdev2'
      exact hinv dn2 dev2 cid2 hdev2'

theorem chanDataInv_parseDevicesLine (st st' : ParserState) (line : String)
    (hinv : chanDataInv st) (h : parseDevicesLine st line = Except.ok st') :
    chanDataInv st' := by
  rcases parseDevicesLine_ok st st' line h with heq | ⟨did, nm, heq⟩ | ⟨did, cid, nm, u, hch⟩
  · rw [heq]; exact hinv
  · rw [heq]; exact chanDataInv_registerDeviceName st did nm hinv
  · exact chanDataInv_registerChannel st st' did cid nm u hinv hch

/-- The channel/data key correspondence holds after pass 1. -/
theorem chanDataInv_parseDevices (lines : List String) (st : ParserState)
    (h : parseDevices initState lines = Except.ok st) : chanDataInv st := by
  refine foldlM_except_inv chanDataInv parseDevicesLine
    (fun s l s' hP hstep => chanDataInv_parseDevicesLine s s' l hP hstep) lines initState st
    (fun dn dev cid hdev => by cases hdev) h

/-- The channel/data key correspondence transfers along `shapeEq`. -/
theorem chanDataInv_of_shapeEq {st0 st : ParserState} (hsh : shapeEq st0 st)
    (hinv : chanDataInv st0) : chanDataInv st := by
  intro dn dev cid hdev
  have hs : (alistGet dn st0.devices).isSome = true := by
    rw [← hsh.2.1 dn, hdev]
    rfl
  obtain ⟨dev0, hdev0⟩ := Option.isSome_iff_exists.mp hs
  obtain ⟨hch, hdata⟩ := hsh.2.2 dn dev0 dev hdev0 hdev
  rw [hdata cid, hch]
  exact hinv dn dev0 cid hdev0

theorem nodupKeys_registerDeviceName (st : ParserState) (did : Int) (nm : String)
    (hinv : nodupKeys st) : nodupKeys (registerDeviceName st did nm) := by
  unfold nodupKeys registerDeviceName
  by_cases hsome : (alistGet nm st.devices).isSome = true
  · simpa [if_pos hsome] using hinv
  · simp only [if_neg hsome, List.map_append]
    rw [List.nodup_append]
    refine ⟨hinv, List.nodup_singleton nm, ?_⟩
    intro a ha hb
    simp only [List.map, List.mem_singleton] at hb
    subst hb
    exact hsome (alistGet_isSome_of_mem a st.devices ha)

theorem nodupKeys_registerChannel (st st' : ParserState) (did cid : Int)
    (nm : String) (u : Option String) (hinv : nodupKeys st)
    (h : registerChannel st did cid nm u = Except.ok st') : nodupKeys st' := by
  rcases registerChannel_ok st st' did cid nm u h with ⟨heq, _⟩ | ⟨dn, dev, _, _, hdev, heq⟩
  · rw [heq]; exact hinv
  · subst heq
    unfold nodupKeys
    rw [alistInsert_map_fst]
    rw [if_pos (by rw [hdev]; rfl)]
    exact hinv

theorem nodupKeys_parseDevicesLine (st st' : ParserState) (line : String)
    (hinv : nodupKeys st) (h : parseDevicesLine st line = Except.ok st') :
    nodupKeys st' := by
  rcases parseDevicesLine_ok st st' line h with heq | ⟨did, nm, heq⟩ | ⟨did, cid, nm, u, hch⟩
  · rw [heq]; exact hinv
  · rw [heq]; exact nodupKeys_registerDeviceName st did nm hinv
  · exact nodupKeys_registerChannel st st' did cid nm u hinv hch

/-- No duplicate device names after pass 1. -/
theorem nodupKeys_parseDevices (lines : List String) (st : ParserState)
    (h : parseDevices initState lines = Except.ok st) : nodupKeys st := by
  refine foldlM_except_inv nodupKeys parseDevicesLine
    (fun s l s' hP hstep => nodupKeys_parseDevicesLine s s' l hP hstep) lines initState st
    List.nodup_nil h

/-- A successful `applySample` never changes the list of device names. -/
theorem applySample_keys (st st' : ParserState) (t did ch : Int) (v : ℚ)
    (h : applySample st t did ch v = Except.ok st') :
    st'.devices.map Prod.fst = st.devices.map Prod.fst := by
  unfold applySample at h
  split at h
  next => cases Except.ok.inj h; rfl
  next dn hreg =>
    split at h
    next => cases Except.ok.inj h; rfl
    next hdn =>
      split at h
      next => cases h
      next dev hdev =>
        split at h
        next => cases Except.ok.inj h; rfl
        next series hser =>
          cases Except.ok.inj h
          show (alistInsert dn _ st.devices).map Prod.fst = _
          rw [alistInsert_map_fst]
          rw [if_pos (by rw [hdev]; rfl)]

theorem processStride_keys (t did : Int) (cd : List String) (st st' : ParserState)
    (i : Nat) (h : processStride t did cd st i = Except.ok st') :
    st'.devices.map Prod.fst = st.devices.map Prod.fst := by
  unfold processStride at h
  split at h
  next => cases h
  next s1 hg1 =>
    split at h
    next => cases h
    next ch hp1 =>
      split at h
      next => cases h
      next s2 hg2 =>
        split at h
        next => cases h
        next d hp2 =>
          split at h
          next => cases h
          next s3 hg3 =>
            split at h
            next => cases h
            next r hp3 => exact applySample_keys st st' t did ch (finalValue r d) h

theorem parseEntriesLine_keys (st st' : ParserState) (line : String)
    (h : parseEntriesLine st line = Except.ok st') :
    st'.devices.map Prod.fst = st.devices.map Prod.fst := by
  unfold parseEntriesLine at h
  split at h
  next => cases Except.ok.inj h; rfl
  next =>
    unfold decodeEntryLine at h
    split at h
    next => cases Except.ok.inj h; rfl
    next =>
      split at h
      next => cases h
      next t hp0 =>
        split at h
        next => cases h
        next did hp1 =>
          exact foldlM_except_inv
            (fun s => s.devices.map Prod.fst = st.devices.map Prod.fst)
            (processStride t did (splitSemi line |>.drop 2))
            (fun s i s' hP hstep =>
              (processStride_keys t did (splitSemi line |>.drop 2) s s' i hstep).trans hP)
            (strideIndices (splitSemi line |>.drop 2).length) st st' rfl h

/-- Pass 2 never changes the list of device names. -/
theorem parseEntries_keys (lines : List String) (st st' : ParserState)
    (h : parseEntries st lines = Except.ok st') :
    st'.devices.map Prod.fst = st.devices.map Prod.fst :=
  foldlM_except_inv (fun s => s.devices.map Prod.fst = st.devices.map Prod.fst)
    parseEntriesLine
    (fun s l s' hP hstep => (parseEntriesLine_keys s s' l hstep).trans hP)
    lines st st' rfl h

/-- If some list element makes the folded step fail from every state, the
whole `Except`-valued fold fails. -/
theorem foldlM_except_stuck {σ α ε : Type} (f : σ → α → Except ε σ) (a : α)
    (ha : ∀ s, ∃ e, f s a = Except.error e) :
    ∀ (l1 l2 : List α) (st : σ), ∃ e, List.foldlM f st (l1 ++ a :: l2) = Except.error e
  | [], l2, st => by
    obtain ⟨e, he⟩ := ha st
    exact ⟨e, by rw [List.nil_append, foldlM_except_cons]; simp only [he]⟩
  | b :: l1, l2, st => by
    cases hb : f st b with
    | error e => exact ⟨e, by rw [List.cons_append, foldlM_except_cons]; simp only [hb]⟩
    | ok st1 =>
      obtain ⟨e, he⟩ := foldlM_except_stuck f a ha l1 l2 st1
      exact ⟨e, by rw [List.cons_append, foldlM_except_cons]; simp only [hb]; exact he⟩

/-- A stride whose last used field lies beyond the end of the field list
always raises (an `IndexError`, or a `ValueError` on an earlier field). -/
theorem processStrideTrailing (t did : Int) (cd : List String) (i : Nat)
    (hle : cd.length ≤ i + 3) (st : ParserState) :
    ∃ e, processStride t did cd st i = Except.error e := by
  cases hg1 : cd.get? i with
  | none => exact ⟨PyError.indexError, by simp only [processStride, hg1]⟩
  | some s1 =>
    cases hp1 : pyInt s1 with
    | none => exact ⟨PyError.valueError, by simp only [processStride, hg1, hp1]⟩
    | some ch =>
      cases hg2 : cd.get? (i + 2) with
      | none => exact ⟨PyError.indexError, by simp only [processStride, hg1, hp1, hg2]⟩
      | some s2 =>
        cases hp2 : pyInt s2 with
        | none =>
          exact ⟨PyError.valueError, by simp only [processStride, hg1, hp1, hg2, hp2]⟩
        | some d =>
          have hg3 : cd.get? (i + 3) = none := List.get?_eq_none.mpr hle
          exact ⟨PyError.indexError,
            by simp only [processStride, hg1, hp1, hg2, hp2, hg3]⟩

/-- When the per-channel field count is not a multiple of 4, the stride loop
reaches the trailing partial stride and fails there (if no earlier stride
failed first). -/
theorem strideFoldTrailing (t did : Int) (cd : List String) (st : ParserState)
    (hmod : cd.length % 4 ≠ 0) :
    ∃ e, List.foldlM (processStride t did cd) st (strideIndices cd.length) =
      Except.error e := by
  have hdm := Nat.div_add_mod cd.length 4
  have h4 : (cd.length - cd.length % 4) % 4 = 0 := by omega
  have hlt : cd.length - cd.length % 4 < cd.length := by omega
  have hle : cd.length ≤ (cd.length - cd.length % 4) + 3 := by omega
  have hmem : cd.length - cd.length % 4 ∈ strideIndices cd.length := by
    unfold strideIndices
    rw [List.mem_filter]
    exact ⟨List.mem_range.mpr hlt, by simp [h4]⟩
  obtain ⟨l1, l2, hsplit⟩ := List.append_of_mem hmem
  rw [hsplit]
  exact foldlM_except_stuck (processStride t did cd) _
    (processStrideTrailing t did cd _ hle) l1 l2 st

/-- The registry and device state after the two metadata lines
`000000000;7;0;MHB` and `000000000;7;15;Altitude;m`. -/
def mhbDevice : Device :=
  Device.mk [(15, ChannelDescriptor.mk "Altitude" (some "m"))] [(15, [])]

/-- A parser state with device id 7 registered as device `MHB` carrying the
declared channel 15. -/
def sampleRegState : ParserState :=
  ParserState.mk [("MHB", mhbDevice)] [(7, "MHB")]

/-- State `sampleRegState` after appending the two samples of the non-monotonic
data lines `2000;7;15;0;2;12345` and `1000;7;15;0;1;-500`. -/
def c6Final : ParserState :=
  ParserState.mk
    [("MHB", Device.mk [(15, ChannelDescriptor.mk "Altitude" (some "m"))]
      [(15, [(2000, finalValue 12345 2), (1000, finalValue (-500) 1)])])]
    [(7, "MHB")]

/-- C1, counterexample: a metadata line with a non-numeric device id field
aborts the whole parse with a `ValueError`, so the following (valid) device
declaration is never processed; without the bad line the same declaration
succeeds. -/
theorem C1_counterexample :
    parseLog "000000000;abc;0;Dev\n000000000;7;0;MHB" = Except.error PyError.valueError ∧
    parseLog "000000000;7;0;MHB" =
      Except.ok (ParserState.mk [("MHB", Device.mk [] [])] [(7, "MHB")]) :=
  ⟨rfl, rfl⟩

/-- C1 (amended): a line that fails the structural guards is skipped and the
run continues, but a line that reaches the integer conversions and fails one
of them raises an uncaught exception: that line aborts the whole parse and
no subsequent line is processed. -/
theorem C1_int_failure_aborts_parse (pre post : List String) (st : ParserState)
    (line : String) (e : PyError)
    (hpre : parseDevices initState pre = Except.ok st)
    (hline : parseDevicesLine st line = Except.error e) :
    parse (pre ++ line :: post) = Except.error e := by
  have habort : parseDevices initState (pre ++ line :: post) = Except.error e := by
    unfold parseDevices at hpre ⊢
    rw [foldlM_except_append]
    simp only [hpre]
    rw [foldlM_except_cons]
    simp only [hline]
  unfold parse
  simp only [habort]

/-- C1, witness for the amended statement at a concrete input. -/
theorem C1_int_failure_aborts_parse_witness :
    parseDevices initState [] = Except.ok initState ∧
    parseDevicesLine initState "000000000;abc;0;Dev" = Except.error PyError.valueError ∧
    parse ([] ++ "000000000;abc;0;Dev" :: ["000000000;7;0;MHB"]) =
      Except.error PyError.valueError :=
  ⟨rfl, rfl,
    C1_int_failure_aborts_parse [] ["000000000;7;0;MHB"] initState
      "000000000;abc;0;Dev" PyError.valueError rfl rfl⟩

/-- C2, counterexample: a data line with 5 per-channel fields (one full
stride plus a trailing partial stride) makes the whole parse fail with an
`IndexError`; the partial stride is iterated, not ignored. -/
theorem C2_counterexample :
    parse ["1000;7;15;0;2;12345;99"] = Except.error PyError.indexError :=
  rfl

/-- C2 (amended): on a data line whose per-channel field count is not a
multiple of 4 the stride loop does iterate into the trailing partial
stride; indexing the missing field of that stride (or converting an earlier
field) raises, so the line errors instead of ignoring the partial stride. -/
theorem C2_trailing_stride_raises (st : ParserState) (line : String)
    (hskip : ¬(pyStartsWith "#" line || pyStartsWith "000000000" line) = true)
    (hlen : ¬(splitSemi line).length < 6)
    (hmod : ((splitSemi line).length - 2) % 4 ≠ 0) :
    ∃ e, parseEntriesLine st line = Except.error e := by
  have hcd : ((splitSemi line).drop 2).length % 4 ≠ 0 := by
    rw [List.length_drop]
    exact hmod
  unfold parseEntriesLine
  rw [if_neg hskip]
  unfold decodeEntryLine
  rw [if_neg hlen]
  cases hp0 : pyInt ((splitSemi line).getD 0 "") with
  | none => exact ⟨PyError.valueError, by simp only [hp0]⟩
  | some t =>
    simp only [hp0]
    cases hp1 : pyInt ((splitSemi line).getD 1 "") with
    | none => exact ⟨PyError.valueError, by simp only [hp1]⟩
    | some did =>
      simp only [hp1]
      exact strideFoldTrailing t did _ st hcd

/-- C2, witness for the amended statement at a concrete input. -/
theorem C2_trailing_stride_raises_witness :
    (¬(pyStartsWith "#" "1000;7;15;0;2;12345;99" ||
        pyStartsWith "000000000" "1000;7;15;0;2;12345;99") = true) ∧
    (¬(splitSemi "1000;7;15;0;2;12345;99").length < 6) ∧
    ((splitSemi "1000;7;15;0;2;12345;99").length - 2) % 4 ≠ 0 ∧
    ∃ e, parseEntriesLine initState "1000;7;15;0;2;12345;99" = Except.error e :=
  ⟨by decide, by decide, by decide,
    C2_trailing_stride_raises initState "1000;7;15;0;2;12345;99"
      (by decide) (by decide) (by decide)⟩

/-- C3, counterexample: the pass-2 classification is a prefix test on the
raw line, so a data line whose timestamp field is the zero-padded
`0000000001` is skipped (the state is unchanged even though its channel is
registered), while the same record with timestamp `1000` is decoded and
appended. -/
theorem C3_counterexample :
    parseEntriesLine sampleRegState "0000000001;7;15;0;2;12345" =
      Except.ok sampleRegState ∧
    parseEntriesLine sampleRegState "1000;7;15;0;2;12345" =
      Except.ok (ParserState.mk
        [("MHB", Device.mk [(15, ChannelDescriptor.mk "Altitude" (some "m"))]
          [(15, [(1000, finalValue 12345 2)])])]
        [(7, "MHB")]) :=
  ⟨rfl, rfl⟩

/-- C3 (amended): in the Entry Decoder a line is skipped at classification
exactly when it starts with the characters `#` or `000000000` — a prefix
test on the whole raw line, not an equality test on the first
semicolon-separated field; every other line proceeds to the field-count
check and decode. In particular a zero-padded timestamp such as
`0000000001` does get its line skipped. -/
theorem C3_skip_is_prefix_test (st : ParserState) (line : String) :
    ((pyStartsWith "#" line || pyStartsWith "000000000" line) = true →
      parseEntriesLine st line = Except.ok st) ∧
    ((pyStartsWith "#" line || pyStartsWith "000000000" line) = false →
      parseEntriesLine st line = decodeEntryLine st line) := by
  constructor
  · intro h
    unfold parseEntriesLine
    rw [if_pos h]
  · intro h
    unfold parseEntriesLine
    rw [if_neg (by simp [h])]

/-- C3, witness: the zero-padded-timestamp line is skipped unchanged even in
a state whose registry would accept its record. -/
theorem C3_skip_is_prefix_test_witness :
    (pyStartsWith "#" "0000000001;7;15;0;2;12345" ||
      pyStartsWith "000000000" "0000000001;7;15;0;2;12345") = true ∧
    parseEntriesLine sampleRegState "0000000001;7;15;0;2;12345" =
      Except.ok sampleRegState :=
  ⟨rfl, (C3_skip_is_prefix_test sampleRegState "0000000001;7;15;0;2;12345").1 rfl⟩

/-- C4: every decoded sample is the raw integer (sign preserved) divided
exactly by ten to the decimal-place count; in particular raw `12345` with 2
decimal places decodes to `123.45` and raw `-500` with 1 decimal place to
`-50.0`, and those values are what the parse stores in the Series. Python's
float division is modelled exactly over `ℚ`. -/
theorem C4_fixed_point_decode :
    (∀ (r : ℤ) (d : ℕ), finalValue r (d : ℤ) = (r : ℚ) / 10 ^ d) ∧
    finalValue 12345 2 = 123.45 ∧
    finalValue (-500) 1 = -50.0 ∧
    parseLog "000000000;7;0;MHB\n000000000;7;15;Altitude;m\n1000;7;15;0;2;12345\n2000;7;15;0;1;-500" =
      Except.ok (ParserState.mk
        [("MHB", Device.mk [(15, ChannelDescriptor.mk "Altitude" (some "m"))]
          [(15, [(1000, 123.45), (2000, -50.0)])])]
        [(7, "MHB")]) := by
  have h1 : finalValue 12345 2 = (123.45 : ℚ) := by
    show (12345 : ℚ) / (10 : ℚ) ^ ((2 : ℕ) : ℤ) = 123.45
    rw [zpow_natCast]
    norm_num
  have h2 : finalValue (-500) 1 = (-50.0 : ℚ) := by
    show ((-500 : ℤ) : ℚ) / (10 : ℚ) ^ ((1 : ℕ) : ℤ) = -50.0
    rw [zpow_natCast]
    norm_num
  refine ⟨fun r d => ?_, h1, h2, ?_⟩
  · show (r : ℚ) / (10 : ℚ) ^ ((d : ℕ) : ℤ) = (r : ℚ) / 10 ^ d
    rw [zpow_natCast]
  · rw [← h1, ← h2]
    rfl

/-- C5: when all four fields of a stride convert but the device id does not
resolve to a usable device name, or the channel id is not a key of that
device's data map, exactly that one sample is dropped: the state is
returned unchanged (every existing Series untouched, no entry created, no
exception) and the loop continues with the remaining strides of the same
line. -/
theorem C5_failed_resolution_drops_sample (st : ParserState) (t did : Int)
    (cd : List String) (i : Nat) (s1 s2 s3 : String) (ch d r : Int)
    (hg1 : cd.get? i = some s1) (hp1 : pyInt s1 = some ch)
    (hg2 : cd.get? (i + 2) = some s2) (hp2 : pyInt s2 = some d)
    (hg3 : cd.get? (i + 3) = some s3) (hp3 : pyInt s3 = some r)
    (hfail : alistGet did st.device_id_to_name = none ∨
             alistGet did st.device_id_to_name = some "" ∨
             (∃ dn dev, alistGet did st.device_id_to_name = some dn ∧ dn ≠ "" ∧
                alistGet dn st.devices = some dev ∧ alistGet ch dev.data = none)) :
    processStride t did cd st i = Except.ok st ∧
    ∀ rest, List.foldlM (processStride t did cd) st (i :: rest) =
            List.foldlM (processStride t did cd) st rest := by
  have hone : processStride t did cd st i = Except.ok st := by
    have happ : applySample st t did ch (finalValue r d) = Except.ok st := by
      rcases hfail with hreg | hreg | ⟨dn, dev, hreg, hdn, hdev, hser⟩
      · simp only [applySample, hreg]
      · simp [applySample, hreg]
      · simp only [applySample, hreg, if_neg hdn, hdev, hser]
    simp only [processStride, hg1, hp1, hg2, hp2, hg3, hp3, happ]
  refine ⟨hone, fun rest => ?_⟩
  rw [foldlM_except_cons]
  simp only [hone]

/-- C5, witness: a stride naming the undeclared channel 99 of the known
device 7 is dropped with the state unchanged. -/
theorem C5_failed_resolution_drops_sample_witness :
    processStride 1000 7 ["99", "0", "2", "12345"] sampleRegState 0 =
      Except.ok sampleRegState :=
  (C5_failed_resolution_drops_sample sampleRegState 1000 7 ["99", "0", "2", "12345"] 0
    "99" "2" "12345" 99 2 12345 rfl rfl rfl rfl rfl rfl
    (Or.inr (Or.inr ⟨"MHB", mhbDevice, rfl, by decide, rfl, rfl⟩))).1

/-- C6: after a successful pass 2 every Series equals its initial content
followed by exactly the valid samples for its channel in input encounter
order (append-only, no deduplication, no sorting), even when timestamps are
non-monotonic. -/
theorem C6_series_order (lines : List String) (st0 st : ParserState) (dn : String)
    (cid : Int) (s0 : List (Int × ℚ))
    (h : parseEntries st0 lines = Except.ok st)
    (h0 : seriesOf st0 dn cid = some s0) :
    seriesOf st dn cid = some (s0 ++ specSamples st0 dn cid lines) :=
  (parseEntries_spec st0 dn cid lines st0 st (shapeEq_refl st0) h).2 s0 h0

/-- C6, witness: two valid samples with decreasing timestamps are stored in
encounter order, not timestamp order. -/
theorem C6_series_order_witness :
    seriesOf c6Final "MHB" 15 =
      some ([] ++ specSamples sampleRegState "MHB" 15
        ["2000;7;15;0;2;12345", "1000;7;15;0;1;-500"]) :=
  C6_series_order ["2000;7;15;0;2;12345", "1000;7;15;0;1;-500"]
    sampleRegState c6Final "MHB" 15 [] rfl rfl

/-- C7: after a full parse, every channel id that is a key of a device's
data map also has an entry in that device's channel-descriptor map;
moreover pass 2 changes no key set at all (`shapeEq`), so a data record
referencing an undeclared channel adds a key to neither map. -/
theorem C7_data_keys_have_descriptors (lines : List String) (st0 st : ParserState)
    (h1 : parseDevices initState lines = Except.ok st0)
    (h2 : parseEntries st0 lines = Except.ok st) :
    (∀ dn dev cid, alistGet dn st.devices = some dev →
       (alistGet cid dev.data).isSome = true →
       (alistGet cid dev.channels).isSome = true) ∧
    shapeEq st0 st := by
  have hsh : shapeEq st0 st :=
    (parseEntries_spec st0 "" 0 lines st0 st (shapeEq_refl st0) h2).1
  have hinv : chanDataInv st :=
    chanDataInv_of_shapeEq hsh (chanDataInv_parseDevices lines st0 h1)
  exact ⟨fun dn dev cid hdev hdata => by rw [← hinv dn dev cid hdev]; exact hdata, hsh⟩

/-- C7, witness: a log whose only data record references the undeclared
channel 99; the record is dropped and both maps keep exactly the declared
channel 15. -/
theorem C7_data_keys_have_descriptors_witness :
    (∀ dn dev cid, alistGet dn sampleRegState.devices = some dev →
       (alistGet cid dev.data).isSome = true →
       (alistGet cid dev.channels).isSome = true) ∧
    shapeEq sampleRegState sampleRegState :=
  C7_data_keys_have_descriptors
    ["000000000;7;0;MHB", "000000000;7;15;Altitude;m", "1000;7;99;0;2;12345"]
    sampleRegState sampleRegState rfl rfl

/-- The parse result of a log that declares the name `MHB` under the two
device ids 1 and 2, with channel 5 declared once under each id. -/
def c8State : ParserState :=
  ParserState.mk [("MHB", Device.mk [(5, ChannelDescriptor.mk "Temp" (some "C"))] [(5, [])])]
    [(1, "MHB"), (2, "MHB")]

/-- The single merged `MHB` device of `c8State`. -/
def c8Dev : Device :=
  Device.mk [(5, ChannelDescriptor.mk "Temp" (some "C"))] [(5, [])]

/-- C8: re-declaring an already-registered device name (under the same or a
different device id) keeps the single existing Device entry untouched, and
after any full parse the device map has no duplicate names; a channel
declaration routed to that name writes into the shared channel map, the
update overwriting any earlier descriptor for the same channel id. -/
theorem C8_redeclare_merges_overwrites (lines : List String) (st st2 : ParserState)
    (did cid : Int) (dn nm : String) (u : Option String) (dev : Device)
    (hparse : parse lines = Except.ok st)
    (hreg : alistGet did st2.device_id_to_name = some dn)
    (hdn : dn ≠ "") (hdev : alistGet dn st2.devices = some dev) :
    nodupKeys st ∧
    (registerDeviceName st2 did dn).devices = st2.devices ∧
    registerChannel st2 did cid nm u = Except.ok (ParserState.mk
      (alistInsert dn
        (Device.mk (alistInsert cid (ChannelDescriptor.mk nm u) dev.channels)
          (alistInsert cid [] dev.data))
        st2.devices)
      st2.device_id_to_name) ∧
    alistGet cid (alistInsert cid (ChannelDescriptor.mk nm u) dev.channels) =
      some (ChannelDescriptor.mk nm u) := by
  have hsome : (alistGet dn st2.devices).isSome = true := by rw [hdev]; rfl
  refine ⟨?_, ?_, ?_, ?_⟩
  · unfold parse at hparse
    cases hp : parseDevices initState lines with
    | error e => simp only [hp] at hparse; cases hparse
    | ok st0 =>
      simp only [hp] at hparse
      unfold nodupKeys
      rw [parseEntries_keys lines st0 st hparse]
      exact nodupKeys_parseDevices lines st0 hp
  · show (if (alistGet dn st2.devices).isSome = true then st2.devices
          else st2.devices ++ [(dn, Device.mk [] [])]) = st2.devices
    rw [if_pos hsome]
  · simp only [registerChannel, hreg, if_neg hdn, hdev]
  · rw [alistGet_insert, if_pos rfl]

/-- C8, witness: `MHB` declared under ids 1 and 2 with channel 5 declared
under each; the parse yields one Device whose channel 5 descriptor is the
later declaration, and a further declaration would overwrite it again. -/
theorem C8_redeclare_merges_overwrites_witness :
    nodupKeys c8State ∧
    (registerDeviceName c8State 2 "MHB").devices = c8State.devices ∧
    registerChannel c8State 2 5 "X" none = Except.ok (ParserState.mk
      (alistInsert "MHB"
        (Device.mk (alistInsert 5 (ChannelDescriptor.mk "X" none) c8Dev.channels)
          (alistInsert 5 [] c8Dev.data))
        c8State.devices)
      c8State.device_id_to_name) ∧
    alistGet 5 (alistInsert 5 (ChannelDescriptor.mk "X" none) c8Dev.channels) =
      some (ChannelDescriptor.mk "X" none) :=
  C8_redeclare_merges_overwrites
    ["000000000;1;0;MHB", "000000000;2;0;MHB", "000000000;1;5;Alt;m",
     "000000000;2;5;Temp;C"]
    c8State c8State 2 5 "MHB" "X" none c8Dev rfl rfl (by decide) rfl

/-- The parse state after the single declaration `000000000;7;0;MHB`. -/
def emptyMhbState : ParserState :=
  ParserState.mk [("MHB", Device.mk [] [])] [(7, "MHB")]

/-- C9: after pass 1 every device name stored in the registry is a key of
the devices map; pass 2 preserves this; and under that invariant the
decoder's `devices[device_name]` access after a successful registry lookup
can never raise a `KeyError`. -/
theorem C9_registry_values_are_device_keys (lines lines2 : List String)
    (st0 st : ParserState)
    (h1 : parseDevices initState lines = Except.ok st0)
    (h2 : parseEntries st0 lines2 = Except.ok st) :
    regInv st0 ∧ regInv st ∧
    ∀ st' : ParserState, regInv st' → ∀ (t did ch : Int) (v : ℚ),
      applySample st' t did ch v ≠ Except.error PyError.keyError := by
  have hr0 := regInv_parseDevices lines st0 h1
  have hsh := (parseEntries_spec st0 "" 0 lines2 st0 st (shapeEq_refl st0) h2).1
  exact ⟨hr0, regInv_of_shapeEq hsh hr0,
    fun st' hinv t did ch v => applySample_no_keyError st' hinv t did ch v⟩

/-- C9, witness at a concrete one-device log whose data record names an
undeclared channel. -/
theorem C9_registry_values_are_device_keys_witness :
    regInv emptyMhbState ∧ regInv emptyMhbState ∧
    ∀ st' : ParserState, regInv st' → ∀ (t did ch : Int) (v : ℚ),
      applySample st' t did ch v ≠ Except.error PyError.keyError :=
  C9_registry_values_are_device_keys ["000000000;7;0;MHB"] ["1000;7;15;0;2;12345"]
    emptyMhbState emptyMhbState rfl rfl

/-- C10: a device-name declaration whose name field strips to the empty
string still records `device_id → ""` in the registry and creates a Device
keyed `""`, but because the decoder tests the looked-up name for Python
truthiness, every later channel declaration and every data sample for that
device id is dropped exactly as if the id were unknown. -/
theorem C10_empty_name_declaration (st : ParserState) (did cid t : Int)
    (nm : String) (u : Option String) (v : ℚ)
    (hreg : alistGet did st.device_id_to_name = some "") :
    parseDevicesLine st "000000000;9;0;   " = Except.ok (registerDeviceName st 9 "") ∧
    alistGet did (registerDeviceName st did "").device_id_to_name = some "" ∧
    (alistGet "" (registerDeviceName st did "").devices).isSome = true ∧
    registerChannel st did cid nm u = Except.ok st ∧
    applySample st t did cid v = Except.ok st := by
  refine ⟨rfl, ?_, registerDeviceName_self st did "", ?_, ?_⟩
  · show alistGet did (alistInsert did "" st.device_id_to_name) = some ""
    rw [alistGet_insert, if_pos rfl]
  · simp [registerChannel, hreg]
  · simp [applySample, hreg]

/-- The state right after an empty-name device declaration under id 9. -/
def c10State : ParserState := ParserState.mk [("", Device.mk [] [])] [(9, "")]

/-- C10, witness: with id 9 registered under the empty name, a channel
declaration and a data sample for id 9 are both dropped unchanged. -/
theorem C10_empty_name_declaration_witness :
    parseDevicesLine c10State "000000000;9;0;   " =
      Except.ok (registerDeviceName c10State 9 "") ∧
    alistGet 9 (registerDeviceName c10State 9 "").device_id_to_name = some "" ∧
    (alistGet "" (registerDeviceName c10State 9 "").devices).isSome = true ∧
    registerChannel c10State 9 15 "Volt" (some "V") = Except.ok c10State ∧
    applySample c10State 1000 9 15 (finalValue 12345 2) = Except.ok c10State :=
  C10_empty_name_declaration c10State 9 15 1000 "Volt" (some "V")
    (finalValue 12345 2) rfl
